import Mathlib

/-!
# Verification of the HomeScout scrape-ingestion and freshness pipeline

Shallow embedding of the core pipeline of `shuchia/HomeScout`
(`backend/app/services/deduplication/deduplicator.py`,
`backend/app/tasks/dispatcher.py`, `backend/app/tasks/scrape_tasks.py`,
`backend/app/tasks/maintenance_tasks.py`,
`backend/app/models/{market_config,data_source,apartment,scrape_job}.py`)
together with theorems settling the frozen claims about it.

Modelling conventions:
* Python `datetime` values are modelled as integers (seconds); `timedelta`
  arithmetic becomes integer arithmetic in seconds.
* Python `float` arithmetic on rents/hours is modelled exactly over `ℚ`
  (the literal `0.1` is modelled as `1/10`); `int(x)` is truncation toward
  zero (`pyInt`).
* Python dictionaries used as hash→id maps are association lists; key lookup
  finds the binding for a key if one exists.
* Nullable database columns are `Option` values.  Python `!=` on a possibly
  `None` value is `pythonNeStr` (`None != s` is `True`), while a SQL
  `col != 'v'` filter on a nullable column is `sqlNeStr` (`NULL != 'v'` is
  not satisfied — three-valued logic drops the row).
* `hashlib.sha256(...).hexdigest()` is modelled as an injective function of
  the hashed content string: every claim about hashes concerns only equality
  or disequality of hash values, and SHA-256 is collision-free on the inputs
  considered, so the hex digest is faithfully represented by the content
  string itself tagged with a marker.
-/

/-- Truncation toward zero of a rational, Python's `int(float)`. -/
def pyInt (q : ℚ) : ℤ := if 0 ≤ q then ⌊q⌋ else ⌈q⌉

/-- Python `!=` between a nullable string and a string literal:
`None != s` is `True`. -/
def pythonNeStr : Option String → String → Bool
  | none, _ => true
  | some s, t => s != t

/-- SQL `col != 'v'` on a nullable column: a `NULL` value compares as
unknown, so the row is *not* matched. -/
def sqlNeStr : Option String → String → Bool
  | none, _ => false
  | some s, t => s != t

/-- Python dict lookup on an association list (first binding wins; the maps
built by the code never bind one key twice). -/
def dictLookup (m : List (String × String)) (k : String) : Option String :=
  match m with
  | [] => none
  | (k', v) :: rest => if k' = k then some v else dictLookup rest k

/-- Python truthiness of an optional string: `None` and `""` are falsy. -/
def truthyStr : Option String → Bool
  | none => false
  | some s => s != ""

/- ## Address standardizer

The repository imports `app.services.normalization.address_standardizer`,
which is not among the source files; only its caller
(`deduplicator.py`) is.  Its two entry points are modelled from the spec. -/

/-- Split a character sequence at spaces, dropping empty fragments
(Python `str.split()` semantics). -/
def splitOnSpacesAux : List Char → List Char → List String
  | [], acc => if acc = [] then [] else [String.mk acc.reverse]
  | c :: cs, acc =>
    if c = ' ' then
      (if acc = [] then [] else [String.mk acc.reverse]) ++ splitOnSpacesAux cs []
    else splitOnSpacesAux cs (c :: acc)

/-- The whitespace-separated words of a character sequence. -/
def splitOnSpaces (cs : List Char) : List String := splitOnSpacesAux cs []

/-- Join words with single spaces. -/
def joinWithSpace : List String → String
  | [] => ""
  | [w] => w
  | w :: ws => w ++ " " ++ joinWithSpace ws

/-- Expansion of common street-type abbreviations and unit markers. -/
def expand_abbrev (w : String) : String :=
  if w = "st" then "street"
  else if w = "ave" then "avenue"
  else if w = "rd" then "road"
  else if w = "blvd" then "boulevard"
  else if w = "apt" then "apartment"
  else if w = "unit" then "apartment"
  else w

/-- Modelled from the spec: the `AddressStandardizer.get_address_key` method
(module `app/services/normalization/address_standardizer.py`, absent from the
sources) "lowercases, strips punctuation/extra whitespace, expands or strips
common street-type abbreviations (St/Street, Ave/Avenue, etc.) and
unit/apartment markers"; a pure, deterministic function of the address. -/
def get_address_key (address : String) : String :=
  let lowered := address.data.map Char.toLower
  let cleaned := lowered.map (fun c => if c.isAlphanum then c else ' ')
  joinWithSpace ((splitOnSpaces cleaned).map expand_abbrev)

/-- Word-overlap similarity of two address keys, the fallback branch of
`DeduplicationService._calculate_similarity` (Jaccard ratio of the word
sets; `0` when either set is empty).  The `fuzzywuzzy` branch of that
method is environment-dependent (guarded by `ImportError`) and the
similarity value never drives any deduplication decision. -/
def word_overlap_similarity (k1 k2 : String) : ℚ :=
  let w1 := (splitOnSpaces k1.data).dedup
  let w2 := (splitOnSpaces k2.data).dedup
  if w1 = [] ∨ w2 = [] then 0
  else ((w1.inter w2).length : ℚ) / ((w1.union w2).length : ℚ)

/-- Modelled from the spec: `AddressStandardizer.addresses_match(a, b,
threshold)` (module absent from the sources) — "token-overlap or
edit-distance ratio in [0,1]; `addresses_match` returns true when
similarity ≥ threshold"; deterministic and side-effect-free. -/
def addresses_match (a b : String) (threshold : ℚ) : Bool :=
  decide (word_overlap_similarity (get_address_key a) (get_address_key b) ≥ threshold)

/-- `DeduplicationService._calculate_similarity`: equal keys give `1.0`,
otherwise the word-overlap ratio. -/
def calculate_similarity (addr1 addr2 : String) : ℚ :=
  let k1 := get_address_key addr1
  let k2 := get_address_key addr2
  if k1 = k2 then 1 else word_overlap_similarity k1 k2

/- ## Listings and content hashing (`deduplicator.py`) -/

/-- A listing dictionary as handled by the deduplicator.  Absent dictionary
keys (and `None` values, which the code treats identically through
`.get(..., default)` / `or` fallbacks) are `none`. -/
structure Listing where
  id : Option String := none
  address : String := ""
  address_normalized : Option String := none
  rent : Option ℤ := none
  bedrooms : Option ℤ := none
  bathrooms : Option ℚ := none
  images : List String := []
  description : Option String := none
  content_hash : Option String := none
deriving Repr, DecidableEq

/-- `listing.get("address_normalized") or listing.get("address", "")`:
Python `or` falls through on `None` *and* on the empty string. -/
def addressInput (l : Listing) : String :=
  match l.address_normalized with
  | some s => if s = "" then l.address else s
  | none => l.address

/-- `hashlib.sha256(content.encode()).hexdigest()`, modelled as an injective
function of the content string (see the module docstring). -/
def sha256_hexdigest (content : String) : String :=
  "sha256:" ++ content

/-- Deterministic rendering of a bathroom count (a Python float; rendered
injectively from the exact rational — only equality and disequality of the
rendered text matter to the claims). -/
def ratStr (q : ℚ) : String :=
  if q.den = 1 then toString q.num
  else toString q.num ++ "/" ++ toString q.den

/-- `DeduplicationService.generate_content_hash`: SHA-256 of
`f"{address_key}|{rent_rounded}|{bedrooms}|{bathrooms}"` where
`rent_rounded = (rent // 50) * 50` (Python floor division). -/
def generate_content_hash (l : Listing) : String :=
  let address_key := get_address_key (addressInput l)
  let rent := l.rent.getD 0
  let rent_rounded := (Int.fdiv rent 50) * 50
  let beds := l.bedrooms.getD 0
  let baths := l.bathrooms.getD 0
  sha256_hexdigest (address_key ++ "|" ++ toString rent_rounded ++ "|" ++
    toString beds ++ "|" ++ ratStr baths)

/-- Result record of `DeduplicationService.check_duplicate`. -/
structure DeduplicationResult where
  is_duplicate : Bool
  content_hash : String
  matched_id : Option String := none
  match_reason : Option String := none
  similarity_score : ℚ := 0
deriving Repr, DecidableEq

/-- `DeduplicationService._find_fuzzy_match` inner loop: skip candidates
whose rent differs by more than 10% or whose bedroom count differs; the
first surviving candidate whose address matches at the threshold is
returned together with its similarity score. -/
def find_fuzzy_match_go (laddr : String) (lrent : ℚ) (lbeds : ℤ)
    (threshold : ℚ) : List Listing → Option (Option String × ℚ)
  | [] => none
  | e :: rest =>
    let erent : ℚ := ((e.rent.getD 0 : ℤ) : ℚ)
    if |lrent - erent| > lrent * (1/10) then
      find_fuzzy_match_go laddr lrent lbeds threshold rest
    else if lbeds ≠ e.bedrooms.getD 0 then
      find_fuzzy_match_go laddr lrent lbeds threshold rest
    else
      let eaddr := addressInput e
      if addresses_match laddr eaddr threshold then
        some (e.id, calculate_similarity laddr eaddr)
      else
        find_fuzzy_match_go laddr lrent lbeds threshold rest

/-- `DeduplicationService._find_fuzzy_match` (threshold defaults to 0.9). -/
def find_fuzzy_match (l : Listing) (existing : List Listing)
    (threshold : ℚ := 9/10) : Option (Option String × ℚ) :=
  find_fuzzy_match_go (addressInput l) ((l.rent.getD 0 : ℤ) : ℚ)
    (l.bedrooms.getD 0) threshold existing

/-- `DeduplicationService.check_duplicate`: exact hash lookup first, then —
only when a non-empty pool of existing listings was supplied — the fuzzy
address match. -/
def check_duplicate (l : Listing) (existingHashes : List (String × String))
    (existingListings : List Listing) : DeduplicationResult :=
  let h := generate_content_hash l
  match dictLookup existingHashes h with
  | some mid =>
    { is_duplicate := true, content_hash := h, matched_id := some mid,
      match_reason := some "exact_hash", similarity_score := 1 }
  | none =>
    if existingListings ≠ [] then
      match find_fuzzy_match l existingListings (9/10) with
      | some (mid, sim) =>
        { is_duplicate := true, content_hash := h, matched_id := mid,
          match_reason := some "fuzzy_address", similarity_score := sim }
      | none => { is_duplicate := false, content_hash := h }
    else { is_duplicate := false, content_hash := h }

/-- One `updates` entry of `deduplicate_batch_with_updates`. -/
structure UpdateEntry where
  matched_id : Option String
  content_hash : String
  images : List String
  description : String
deriving Repr, DecidableEq

/-- Accumulator of the `deduplicate_batch_with_updates` loop. -/
structure DedupState where
  new_listings : List Listing := []
  updates : List UpdateEntry := []
  skipped : List Listing := []
  batch_hashes : List String := []
deriving Repr, DecidableEq

/-- A listing with its content hash attached
(`listing["content_hash"] = content_hash`). -/
def withHash (l : Listing) : Listing :=
  { l with content_hash := some (generate_content_hash l) }

/-- One iteration of the `deduplicate_batch_with_updates` loop: exact match
against the DB map, else fuzzy match (when a pool was supplied and the
matched id is truthy), else intra-batch duplicate, else new. -/
def dedup_step (existingHashes : List (String × String))
    (existingListings : List Listing) (st : DedupState) (l : Listing) :
    DedupState :=
  let h := generate_content_hash l
  let l' := { l with content_hash := some h }
  match dictLookup existingHashes h with
  | some mid =>
    { st with updates := st.updates ++
        [⟨some mid, h, l'.images, l'.description.getD ""⟩] }
  | none =>
    let fuzzyUpd : Option UpdateEntry :=
      if existingListings ≠ [] then
        let r := check_duplicate l' existingHashes existingListings
        if r.is_duplicate && truthyStr r.matched_id then
          some ⟨r.matched_id, h, l'.images, l'.description.getD ""⟩
        else none
      else none
    match fuzzyUpd with
    | some u => { st with updates := st.updates ++ [u] }
    | none =>
      if h ∈ st.batch_hashes then { st with skipped := st.skipped ++ [l'] }
      else { st with new_listings := st.new_listings ++ [l'],
                     batch_hashes := st.batch_hashes ++ [h] }

/-- `DeduplicationService.deduplicate_batch_with_updates`: partition a batch
into `(new_listings, updates, skipped)` processing listings strictly in
input order. -/
def deduplicate_batch_with_updates (listings : List Listing)
    (existingHashes : List (String × String))
    (existingListings : List Listing := []) :
    List Listing × List UpdateEntry × List Listing :=
  let st := listings.foldl (dedup_step existingHashes existingListings) {}
  (st.new_listings, st.updates, st.skipped)

/- ## Markets and the dispatcher (`market_config.py`, `dispatcher.py`) -/

/-- A `market_configs` row (`MarketConfigModel`). -/
structure Market where
  id : String
  city : String := ""
  tier : String := "cool"
  is_enabled : Bool := true
  max_listings_per_scrape : ℤ := 100
  scrape_frequency_hours : ℤ := 24
  last_scrape_at : Option ℤ := none
  last_scrape_status : Option String := none
  consecutive_failures : ℤ := 0
deriving Repr, DecidableEq

/-- `MarketConfigModel.decay_rate` / the dispatcher's `tier_rates.get(tier, 1)`:
hot→3, standard→2, cool→1, anything else→1. -/
def tier_rates_get (tier : String) : ℤ :=
  if tier = "hot" then 3
  else if tier = "standard" then 2
  else if tier = "cool" then 1
  else 1

/-- Decision taken by `_dispatch` for one enabled market. -/
inductive DispatchDecision where
  | dispatched (delaySeconds : ℕ)
  | skipped (reason : String)
deriving Repr, DecidableEq

/-- The `not_due` test of `_dispatch`:
`market.last_scrape_at` present and `now < last_scrape_at +
timedelta(hours=market.scrape_frequency_hours)`. -/
def isNotDue (now : ℤ) (m : Market) : Bool :=
  match m.last_scrape_at with
  | some t => decide (now < t + m.scrape_frequency_hours * 3600)
  | none => false

/-- Body of the `_dispatch` loop for one enabled market.  `delay` stands for
the value returned by `random.randint(0, 60)` (an arbitrary natural number
≤ 60). -/
def marketDecision (now : ℤ) (runningCities : List String) (delay : ℕ)
    (m : Market) : DispatchDecision :=
  if m.consecutive_failures ≥ 3 then .skipped "circuit_breaker"
  else if isNotDue now m then .skipped "not_due"
  else if m.city ∈ runningCities then .skipped "already_running"
  else .dispatched delay

/-- One `_dispatch` tick: every enabled market is classified by
`marketDecision`; `delays` is the oracle of `random.randint(0, 60)` draws,
keyed by market id. -/
def dispatch_scrapes_tick (now : ℤ) (runningCities : List String)
    (delays : String → ℕ) (markets : List Market) :
    List (String × DispatchDecision) :=
  (markets.filter (·.is_enabled)).map
    (fun m => (m.id, marketDecision now runningCities (delays m.id) m))

/- ## Freshness engine (`maintenance_tasks.py`: `_decay_and_verify`) -/

/-- An `apartments` row (`ApartmentModel`), restricted to the fields the
freshness engine and the maintenance sweep read or write. -/
structure Apartment where
  id : String := ""
  market_id : Option String := none
  last_seen_at : Option ℤ := none
  freshness_confidence : ℤ := 100
  confidence_updated_at : Option ℤ := none
  verification_status : Option String := none
  is_active : ℤ := 1
deriving Repr, DecidableEq

/-- `markets.get(apt.market_id)`: dictionary of market configs keyed by id;
a `None` key finds nothing. -/
def find_market (markets : List Market) (mid : Option String) :
    Option Market :=
  match mid with
  | none => none
  | some i => markets.find? (fun m => m.id = i)

/-- Decay rate used by `_decay_and_verify` for a listing:
`tier = market.tier if market else "cool"`, then `tier_rates.get(tier, 1)`. -/
def decay_rate_for (markets : List Market) (mid : Option String) : ℤ :=
  tier_rates_get (match find_market markets mid with
    | some m => m.tier
    | none => "cool")

/-- `new_confidence = max(0, int(100 - (hours_since_seen * decay_rate)))`
where `hours_since_seen = (now - last_seen).total_seconds() / 3600`. -/
def newConfidence (elapsedSeconds : ℤ) (rate : ℤ) : ℤ :=
  max 0 (pyInt (100 - ((elapsedSeconds : ℚ) / 3600) * (rate : ℚ)))

/-- One listing's treatment by the `_decay_and_verify` loop: returns the
updated row and whether a verification task was dispatched for it.
Rows not selected by the query (`is_active != 1`) and rows skipped by the
`if not apt.last_seen_at: continue` guard are untouched. -/
def decayStep (markets : List Market) (now : ℤ) (apt : Apartment) :
    Apartment × Bool :=
  if apt.is_active ≠ 1 then (apt, false)
  else
    match apt.last_seen_at with
    | none => (apt, false)
    | some seen =>
      let rate := decay_rate_for markets apt.market_id
      let conf := newConfidence (now - seen) rate
      let apt1 :=
        if conf ≠ apt.freshness_confidence then
          { apt with freshness_confidence := conf,
                     confidence_updated_at := some now }
        else apt
      let step2 : Apartment × Bool :=
        if conf < 40 ∧ apt1.verification_status = none then
          ({ apt1 with verification_status := some "pending" }, true)
        else (apt1, false)
      let apt3 :=
        if conf = 0 ∧ pythonNeStr step2.1.verification_status "verified" then
          { step2.1 with is_active := 0 }
        else step2.1
      (apt3, step2.2)

/-- Iterated hourly decay passes over one listing (one `_decay_and_verify`
run per element of `times`), counting dispatched verification checks. -/
def decayIter (markets : List Market) (apt : Apartment) :
    List ℤ → Apartment × ℕ
  | [] => (apt, 0)
  | t :: ts =>
    let s := decayStep markets t apt
    let r := decayIter markets s.1 ts
    (r.1, (if s.2 then 1 else 0) + r.2)

/- ## Maintenance sweep (`maintenance_tasks.py`: `_cleanup_maintenance`) -/

/-- A `scrape_jobs` row (`ScrapeJobModel`), restricted to the fields the
sweep and the worker touch. -/
structure ScrapeJob where
  id : String := ""
  city : String := ""
  status : String := "pending"
  started_at : Option ℤ := none
  completed_at : Option ℤ := none
deriving Repr, DecidableEq

/-- A `data_sources` row (`DataSourceModel`), restricted to the fields used
by `can_make_request` and the rate-limit resets. -/
structure DataSource where
  id : String := ""
  is_enabled : Bool := true
  monthly_budget_cents : ℤ := 0
  current_month_cost_cents : ℤ := 0
  rate_limit_per_hour : ℤ := 100
  current_hour_calls : ℤ := 0
  rate_limit_per_day : ℤ := 1000
  current_day_calls : ℤ := 0
  rate_limit_reset_day : Option ℤ := none
deriving Repr, DecidableEq

/-- Sweep step 1, one row: `UPDATE apartments SET is_active=0 WHERE
freshness_confidence = 0 AND is_active = 1 AND verification_status !=
'verified'`.  The SQL `!=` filter does not match `NULL` statuses. -/
def deactivate_zero_row (a : Apartment) : Apartment :=
  if a.freshness_confidence = 0 ∧ a.is_active = 1 ∧
      sqlNeStr a.verification_status "verified" then
    { a with is_active := 0 }
  else a

/-- Sweep step 1 over the apartments table. -/
def cleanup_deactivate_zero_confidence (apts : List Apartment) :
    List Apartment :=
  apts.map deactivate_zero_row

/-- Sweep step 2, one row: `UPDATE market_configs SET consecutive_failures=0
WHERE consecutive_failures > 0`. -/
def reset_failures_row (m : Market) : Market :=
  if m.consecutive_failures > 0 then { m with consecutive_failures := 0 }
  else m

/-- Sweep step 2 over the market table. -/
def reset_circuit_breakers (ms : List Market) : List Market :=
  ms.map reset_failures_row

/-- Sweep step 3, one row: jobs `running` whose `started_at` is older than
30 minutes are force-failed (a `NULL started_at` does not satisfy the SQL
comparison). -/
def fail_stale_row (now : ℤ) (j : ScrapeJob) : ScrapeJob :=
  if j.status = "running" ∧
      (match j.started_at with
        | some t => decide (t < now - 1800)
        | none => false) = true then
    { j with status := "failed", completed_at := some now }
  else j

/-- Sweep step 3 over the jobs table. -/
def cleanup_fail_stale_jobs (now : ℤ) (jobs : List ScrapeJob) :
    List ScrapeJob :=
  jobs.map (fail_stale_row now)

/-- `reset_rate_limits(period="day")`: zero every source's daily counter and
set the next daily reset time. -/
def reset_rate_limits_day (now : ℤ) (sources : List DataSource) :
    List DataSource :=
  sources.map (fun ds =>
    { ds with current_day_calls := 0,
              rate_limit_reset_day := some (now + 86400) })

/-- Fault oracle for `_cleanup_maintenance`: which of the four cleanups
raises an exception when it executes. -/
structure SweepFaults where
  step1_raises : Bool := false
  step2_raises : Bool := false
  step3_raises : Bool := false
  step4_raises : Bool := false
deriving Repr, DecidableEq

/-- The persistent state the sweep touches. -/
structure SweepState where
  apartments : List Apartment := []
  markets : List Market := []
  jobs : List ScrapeJob := []
  sources : List DataSource := []
deriving Repr, DecidableEq

/-- `_cleanup_maintenance` with exception injection.  The source runs steps
1–3 inside a single session block with no per-step `try/except` and a single
`commit` at the end: an exception raised by any of them propagates out of
the task, the later steps never run, and the uncommitted earlier updates are
rolled back, so the state is returned unchanged together with the escaped
error.  Step 4 delegates to `reset_rate_limits`, whose own `try/except`
swallows its failure (its reset is simply lost). -/
def cleanup_maintenance (faults : SweepFaults) (now : ℤ) (st : SweepState) :
    SweepState × Option String :=
  if faults.step1_raises then (st, some "step1 raised")
  else if faults.step2_raises then (st, some "step2 raised")
  else if faults.step3_raises then (st, some "step3 raised")
  else
    let st1 : SweepState :=
      { st with
        apartments := cleanup_deactivate_zero_confidence st.apartments,
        markets := reset_circuit_breakers st.markets,
        jobs := cleanup_fail_stale_jobs now st.jobs }
    if faults.step4_raises then (st1, none)
    else ({ st1 with sources := reset_rate_limits_day now st1.sources }, none)

/- ## Scrape worker pre-flight (`data_source.py`, `scrape_tasks.py`) -/

/-- `DataSourceModel.can_make_request`. -/
def can_make_request (ds : DataSource) : Bool :=
  if ¬ds.is_enabled then false
  else if ds.monthly_budget_cents > 0 ∧
      ds.current_month_cost_cents ≥ ds.monthly_budget_cents then false
  else if ds.current_hour_calls ≥ ds.rate_limit_per_hour then false
  else if ds.current_day_calls ≥ ds.rate_limit_per_day then false
  else true

/-- Observable outcome of one `_scrape_market` run. -/
structure WorkerRun where
  resultStatus : String
  resultReason : Option String := none
  retryRaised : Bool := false
  jobStatus : String
  marketAfter : Market
deriving Repr, DecidableEq

/-- `_scrape_market` at the granularity the claims need: the job row is
created `running`; then the pre-flight rate-limit gate (`if data_source and
not data_source.can_make_request()`) either fails the job and returns the
`rate_limit` skip — leaving the market row untouched and raising no retry —
or the scrape proper runs.  `scrapeSucceeds` is the oracle for whether the
scrape/normalize/persist phase raises; on success the market bookkeeping is
`_update_market_after_scrape(market_id, "completed")`, on failure
`_update_market_after_scrape(market_id, "failed")` followed by
`task.retry` while retries remain. -/
def scrape_market (m : Market) (dataSource : Option DataSource)
    (scrapeSucceeds : Bool) (retriesLeft : Bool) (now : ℤ) : WorkerRun :=
  if (dataSource.map (fun ds => !can_make_request ds)).getD false then
    { resultStatus := "skipped", resultReason := some "rate_limit",
      retryRaised := false, jobStatus := "failed", marketAfter := m }
  else if scrapeSucceeds then
    { resultStatus := "completed", jobStatus := "completed",
      marketAfter :=
        { m with last_scrape_at := some now,
                 last_scrape_status := some "completed",
                 consecutive_failures := 0 } }
  else
    let m' : Market :=
      { m with last_scrape_at := some now,
               last_scrape_status := some "failed",
               consecutive_failures := m.consecutive_failures + 1 }
    { resultStatus := "failed", retryRaised := retriesLeft,
      jobStatus := "failed", marketAfter := m' }

/- ## Concrete sample records used by witnesses and counterexamples -/

/-- "Round to the nearest multiple of 50", the rounding named by the spec's
content-hash invariant (half-way cases round up).  Used only to state that
invariant; the code floors instead (`(rent // 50) * 50`). -/
def nearest50 (r : ℤ) : ℤ := (Int.fdiv (r + 25) 50) * 50

/-- Sample listing: 123 Main St at $1540. -/
def sampleL1540 : Listing :=
  { address := "123 Main St", rent := some 1540,
    bedrooms := some 1, bathrooms := some 1 }

/-- Sample listing: 123 Main St at $1560. -/
def sampleL1560 : Listing :=
  { address := "123 Main St", rent := some 1560,
    bedrooms := some 1, bathrooms := some 1 }

/-- Sample listing: 123 Main St at $1500, with a description. -/
def sampleL1500 : Listing :=
  { address := "123 Main St", rent := some 1500,
    bedrooms := some 1, bathrooms := some 1,
    description := some "spacious" }

/-- Sample listing: 123 Main St at $1549 (same $50 floor bucket as $1500). -/
def sampleL1549 : Listing :=
  { address := "123 Main St", rent := some 1549,
    bedrooms := some 1, bathrooms := some 1, images := ["img1"] }

/-- Sample data source whose hourly call count has reached its limit. -/
def dsOverHour : DataSource := { id := "apartments_com", current_hour_calls := 100 }

/-- Sample market. -/
def mktPhila : Market := { id := "philadelphia", city := "Philadelphia" }

/-- Sample overdue market with a tripped circuit breaker. -/
def mktBroken : Market :=
  { id := "nyc", city := "New York", tier := "hot",
    last_scrape_at := some 0, consecutive_failures := 3 }

/-- Sample active listing that has never been seen in a scrape
(`last_seen_at` null) with stored confidence 0. -/
def aptUnseen : Apartment := { id := "a1", freshness_confidence := 0 }

/-- Sample active listing, last seen at time 0, in no known market. -/
def aptSeen : Apartment := { id := "a2", last_seen_at := some 0 }

/-- Sample verified active listing, last seen at time 0. -/
def aptVerified : Apartment :=
  { id := "a3", last_seen_at := some 0,
    verification_status := some "verified" }

/-- Sample active pending listing with zero stored confidence. -/
def aptPendingZero : Apartment :=
  { id := "a4", last_seen_at := some 0, freshness_confidence := 0,
    verification_status := some "pending" }

/-- Sample sweep state: a pending zero-confidence listing, a market with 2
consecutive failures, a job stuck in `running` since time 0, and a data
source with a nonzero daily counter. -/
def sweepStart : SweepState :=
  { apartments := [aptPendingZero],
    markets := [{ id := "nyc", consecutive_failures := 2 }],
    jobs := [{ id := "j1", status := "running", started_at := some 0 }],
    sources := [{ id := "s1", current_day_calls := 7 }] }

/- ## Shared helper lemmas -/

theorem generate_content_hash_set_hash (l : Listing) (x : Option String) :
    generate_content_hash { l with content_hash := x } =
      generate_content_hash l := rfl

/-- Kernel-computable form of `newConfidence`: with `t = 360000 - e·r`,
the confidence is `max 0` of the integer truncation of `t / 3600`. -/
theorem newConfidence_eval (e r : ℤ) :
    newConfidence e r =
      max 0 (if 0 ≤ 360000 - e * r then (360000 - e * r) / 3600
             else -((e * r - 360000) / 3600)) := by
  unfold newConfidence pyInt
  have hq : (100 : ℚ) - ((e : ℚ) / 3600) * (r : ℚ) =
      ((360000 - e * r : ℤ) : ℚ) / ((3600 : ℕ) : ℚ) := by
    push_cast
    ring
  rw [hq]
  by_cases ht : (0 : ℤ) ≤ 360000 - e * r
  · have hq0 : (0 : ℚ) ≤ ((360000 - e * r : ℤ) : ℚ) / ((3600 : ℕ) : ℚ) := by
      apply div_nonneg
      · exact_mod_cast ht
      · norm_num
    rw [if_pos hq0, if_pos ht, Rat.floor_intCast_div_natCast]
    norm_num
  · have hq0 : ¬(0 : ℚ) ≤ ((360000 - e * r : ℤ) : ℚ) / ((3600 : ℕ) : ℚ) := by
      push_neg at ht ⊢
      apply div_neg_of_neg_of_pos
      · exact_mod_cast ht
      · norm_num
    rw [if_neg hq0, if_neg ht]
    rw [show ((360000 - e * r : ℤ) : ℚ) / ((3600 : ℕ) : ℚ) =
        -(((e * r - 360000 : ℤ) : ℚ) / ((3600 : ℕ) : ℚ)) by push_cast; ring]
    rw [Int.ceil_neg, Rat.floor_intCast_div_natCast]
    norm_num


/- ## Claims -/

set_option maxRecDepth 20000 in
/-- C1 (counterexample): two listings with the same address (hence the same
normalized address key), equal bedrooms and equal bathrooms, whose rents
$1540 and $1560 round to the same nearest multiple of 50 (both to $1550),
nevertheless receive different content hashes: `generate_content_hash`
floors the rent to a multiple of 50 (`(rent // 50) * 50`, giving $1500 vs
$1550) rather than rounding to the nearest one. -/
theorem content_hash_not_nearest_rounding :
    get_address_key (addressInput sampleL1540) =
      get_address_key (addressInput sampleL1560) ∧
    nearest50 (sampleL1540.rent.getD 0) = nearest50 (sampleL1560.rent.getD 0) ∧
    sampleL1540.bedrooms = sampleL1560.bedrooms ∧
    sampleL1540.bathrooms = sampleL1560.bathrooms ∧
    generate_content_hash sampleL1540 ≠ generate_content_hash sampleL1560 := by
  refine ⟨rfl, by decide, rfl, rfl, by decide⟩

/-- C1 (amended): the content hash is a deterministic function of
(normalized address key, rent floored to a multiple of 50 via
`(rent // 50) * 50`, bedrooms, bathrooms): two listings agreeing on those
four values receive the same hash string. -/
theorem content_hash_deterministic (l1 l2 : Listing)
    (hkey : get_address_key (addressInput l1) =
      get_address_key (addressInput l2))
    (hrent : Int.fdiv (l1.rent.getD 0) 50 = Int.fdiv (l2.rent.getD 0) 50)
    (hbeds : l1.bedrooms.getD 0 = l2.bedrooms.getD 0)
    (hbaths : l1.bathrooms.getD 0 = l2.bathrooms.getD 0) :
    generate_content_hash l1 = generate_content_hash l2 := by
  simp only [generate_content_hash]
  rw [hkey, hrent, hbeds, hbaths]

set_option maxRecDepth 20000 in
/-- C1 (witness): two concrete listings differing in rent ($1500 vs $1549),
images and description but agreeing on the four hash inputs receive the
same content hash. -/
theorem content_hash_deterministic_witness :
    get_address_key (addressInput sampleL1500) =
      get_address_key (addressInput sampleL1549) ∧
    Int.fdiv (sampleL1500.rent.getD 0) 50 =
      Int.fdiv (sampleL1549.rent.getD 0) 50 ∧
    generate_content_hash sampleL1500 = generate_content_hash sampleL1549 :=
  ⟨rfl, by decide,
    content_hash_deterministic sampleL1500 sampleL1549 rfl (by decide)
      (by decide) (by decide)⟩

/-- C9: when two listings of one batch share a content hash that is absent
from the existing corpus, the one appearing first in input order is
classified `new` and the later one `skipped`; reversing the input order
reverses which one becomes the canonical `new` entry. -/
theorem dedup_first_in_batch_wins (a b : Listing)
    (H : List (String × String))
    (hab : generate_content_hash a = generate_content_hash b)
    (ha : dictLookup H (generate_content_hash a) = none) :
    deduplicate_batch_with_updates [a, b] H [] =
      ([withHash a], [], [withHash b]) ∧
    deduplicate_batch_with_updates [b, a] H [] =
      ([withHash b], [], [withHash a]) := by
  have hb : dictLookup H (generate_content_hash b) = none := hab ▸ ha
  unfold deduplicate_batch_with_updates
  constructor <;>
    simp [List.foldl, dedup_step, ha, hb, hab, withHash]

set_option maxRecDepth 20000 in
/-- C9 (witness): the order sensitivity at two concrete listings sharing
the hash bucket (rents $1500 and $1549). -/
theorem dedup_first_in_batch_wins_witness :
    generate_content_hash sampleL1500 = generate_content_hash sampleL1549 ∧
    deduplicate_batch_with_updates [sampleL1500, sampleL1549] [] [] =
      ([withHash sampleL1500], [], [withHash sampleL1549]) ∧
    deduplicate_batch_with_updates [sampleL1549, sampleL1500] [] [] =
      ([withHash sampleL1549], [], [withHash sampleL1500]) :=
  ⟨by decide,
    (dedup_first_in_batch_wins sampleL1500 sampleL1549 [] (by decide) rfl).1,
    (dedup_first_in_batch_wins sampleL1500 sampleL1549 [] (by decide) rfl).2⟩

/-- C10: the hourly decay pass leaves every active listing whose
`last_seen_at` is null completely untouched — confidence, verification
status and active flag unchanged — and dispatches no verification check for
it, however low its stored confidence is. -/
theorem decay_pass_skips_unseen (markets : List Market) (now : ℤ)
    (apt : Apartment) (hactive : apt.is_active = 1)
    (hseen : apt.last_seen_at = none) :
    decayStep markets now apt = (apt, false) := by
  unfold decayStep
  rw [hseen, hactive]
  simp

/-- C10 (witness): a concrete never-seen active listing with stored
confidence 0 is untouched by a decay pass. -/
theorem decay_pass_skips_unseen_witness :
    decayStep [] 1000 aptUnseen = (aptUnseen, false) :=
  decay_pass_skips_unseen [] 1000 aptUnseen rfl rfl

/-- C8: `can_make_request` is true iff the source is enabled, a positive
monthly budget is not yet reached, and the hourly and daily call counts are
strictly below their limits; when it is false, the worker's pre-flight
check returns the `rate_limit` skip with the job marked failed, raises no
retry, and leaves the market row — `consecutive_failures`,
`last_scrape_at`, `last_scrape_status` — unchanged. -/
theorem rate_limit_preflight (ds : DataSource) (m : Market)
    (scrapeSucceeds retriesLeft : Bool) (now : ℤ) :
    (can_make_request ds = true ↔
      (ds.is_enabled = true ∧
        (0 < ds.monthly_budget_cents →
          ds.current_month_cost_cents < ds.monthly_budget_cents) ∧
        ds.current_hour_calls < ds.rate_limit_per_hour ∧
        ds.current_day_calls < ds.rate_limit_per_day)) ∧
    (can_make_request ds = false →
      scrape_market m (some ds) scrapeSucceeds retriesLeft now =
        { resultStatus := "skipped", resultReason := some "rate_limit",
          retryRaised := false, jobStatus := "failed", marketAfter := m }) := by
  constructor
  · unfold can_make_request
    split_ifs with h1 h2 h3 h4 <;> simp_all
  · intro h
    simp [scrape_market, h]

/-- C8 (witness): a source at its hourly cap fails the pre-flight and the
worker returns the `rate_limit` skip leaving the market untouched. -/
theorem rate_limit_preflight_witness :
    can_make_request dsOverHour = false ∧
    scrape_market mktPhila (some dsOverHour) true true 0 =
      { resultStatus := "skipped", resultReason := some "rate_limit",
        retryRaised := false, jobStatus := "failed", marketAfter := mktPhila } :=
  ⟨by decide,
    (rate_limit_preflight dsOverHour mktPhila true true 0).2 (by decide)⟩

/-- C3: dispatcher decision policy for an enabled market, in priority
order: `circuit_breaker` when `consecutive_failures ≥ 3` regardless of
being overdue; else `not_due` exactly when a previous scrape exists and
`now < last_scrape_at + scrape_frequency_hours` (a market with no prior
scrape is never skipped as `not_due`); else `already_running` when a
running job targets the market's city; else dispatched with the drawn
stagger delay, which lies in [0, 60]; and a circuit-broken market whose
failures the daily maintenance sweep reset is dispatched on the next tick
when otherwise due. -/
theorem dispatcher_decision_policy (now : ℤ) (running : List String)
    (delay : ℕ) (delays : String → ℕ) (markets : List Market) (m : Market)
    (hdelay : delay ≤ 60) :
    (m.consecutive_failures ≥ 3 →
      marketDecision now running delay m = .skipped "circuit_breaker") ∧
    (m.consecutive_failures < 3 → isNotDue now m = true →
      marketDecision now running delay m = .skipped "not_due") ∧
    (∀ t, m.last_scrape_at = some t →
      (isNotDue now m = true ↔ now < t + m.scrape_frequency_hours * 3600)) ∧
    (m.last_scrape_at = none →
      marketDecision now running delay m ≠ .skipped "not_due") ∧
    (m.consecutive_failures < 3 → isNotDue now m = false →
      m.city ∈ running →
      marketDecision now running delay m = .skipped "already_running") ∧
    (m.consecutive_failures < 3 → isNotDue now m = false →
      m.city ∉ running →
      marketDecision now running delay m = .dispatched delay ∧ delay ≤ 60) ∧
    (m ∈ markets → m.is_enabled = true →
      (m.id, marketDecision now running (delays m.id) m) ∈
        dispatch_scrapes_tick now running delays markets) ∧
    (m.consecutive_failures ≥ 3 →
      isNotDue now (reset_failures_row m) = false →
      (reset_failures_row m).city ∉ running →
      marketDecision now running delay (reset_failures_row m) =
        .dispatched delay) := by
  refine ⟨?_, ?_, ?_, ?_, ?_, ?_, ?_, ?_⟩
  · intro h
    simp [marketDecision, h]
  · intro h1 h2
    simp [marketDecision, h2, not_le.2 h1]
  · intro t ht
    simp [isNotDue, ht]
  · intro h
    unfold marketDecision
    have hnd : isNotDue now m = false := by simp [isNotDue, h]
    rw [hnd]
    split_ifs <;> simp_all
  · intro h1 h2 h3
    simp [marketDecision, h2, h3, not_le.2 h1]
  · intro h1 h2 h3
    simp [marketDecision, h2, h3, not_le.2 h1, hdelay]
  · intro hm he
    unfold dispatch_scrapes_tick
    exact List.mem_map_of_mem _ (List.mem_filter.2 ⟨hm, by simp [he]⟩)
  · intro h1 h2 h3
    have hcf : (reset_failures_row m).consecutive_failures = 0 := by
      unfold reset_failures_row
      rw [if_pos (by omega)]
    simp [marketDecision, hcf, h2, h3]

/-- C3 (witness): a concrete overdue hot market with 3 consecutive failures
is skipped as `circuit_breaker`; after the sweep's failure reset the same
market is dispatched on the next tick. -/
theorem dispatcher_decision_policy_witness :
    marketDecision 1000000 [] 30 mktBroken = .skipped "circuit_breaker" ∧
    marketDecision 1000000 [] 30 (reset_failures_row mktBroken) =
      .dispatched 30 :=
  ⟨(dispatcher_decision_policy 1000000 [] 30 (fun _ => 30) [] mktBroken
      (by decide)).1 (by decide),
    (dispatcher_decision_policy 1000000 [] 30 (fun _ => 30) [] mktBroken
      (by decide)).2.2.2.2.2.2.2 (by decide) (by decide) (by decide)⟩

theorem pyInt_intCast (n : ℤ) : pyInt (n : ℚ) = n := by
  unfold pyInt
  split_ifs
  · exact Int.floor_intCast n
  · exact Int.ceil_intCast n

theorem pyInt_mono {q1 q2 : ℚ} (h : q1 ≤ q2) : pyInt q1 ≤ pyInt q2 := by
  unfold pyInt
  by_cases h1 : (0 : ℚ) ≤ q1 <;> by_cases h2 : (0 : ℚ) ≤ q2
  · rw [if_pos h1, if_pos h2]
    exact Int.floor_mono h
  · exact absurd (le_trans h1 h) h2
  · rw [if_neg h1, if_pos h2]
    have hc : ⌈q1⌉ ≤ 0 := Int.ceil_le.2 (by push_cast; exact le_of_not_le h1)
    have hf : (0 : ℤ) ≤ ⌊q2⌋ := Int.floor_nonneg.2 h2
    omega
  · rw [if_neg h1, if_neg h2]
    exact Int.ceil_mono h

/-- C4: the hourly decay pass assigns each processed listing the
confidence `max(0, 100 - hours_since_last_seen × decay_rate)` (stated
exactly at whole-hour ages; fractional hours are truncated toward zero by
Python's `int`), where the decay rate is 3 for a hot-tier market, 2 for
standard, 1 for cool, and 1 when `market_id` maps to no market; for a
fixed rate the confidence is non-increasing as evaluation time advances; a
hot-tier listing unseen for 10 hours has confidence at most 70; and any
listing unseen 34 or more hours at the hot rate has confidence exactly 0. -/
theorem decay_confidence_formula (markets : List Market) (now seen : ℤ)
    (apt : Apartment) (m : Market) :
    (apt.is_active = 1 → apt.last_seen_at = some seen →
      (decayStep markets now apt).1.freshness_confidence =
        newConfidence (now - seen) (decay_rate_for markets apt.market_id)) ∧
    (find_market markets apt.market_id = some m →
      ((m.tier = "hot" → decay_rate_for markets apt.market_id = 3) ∧
        (m.tier = "standard" → decay_rate_for markets apt.market_id = 2) ∧
        (m.tier = "cool" → decay_rate_for markets apt.market_id = 1))) ∧
    (find_market markets apt.market_id = none →
      decay_rate_for markets apt.market_id = 1) ∧
    (∀ h : ℕ, ∀ r : ℤ,
      newConfidence ((h : ℤ) * 3600) r = max 0 (100 - (h : ℤ) * r)) ∧
    (∀ r e1 e2 : ℤ, 0 ≤ r → e1 ≤ e2 →
      newConfidence e2 r ≤ newConfidence e1 r) ∧
    newConfidence (10 * 3600) 3 ≤ 70 ∧
    (∀ e : ℤ, 34 * 3600 ≤ e → newConfidence e 3 = 0) := by
  refine ⟨?_, ?_, ?_, ?_, ?_, ?_, ?_⟩
  · intro ha hs
    unfold decayStep
    rw [hs, ha]
    simp only [ne_eq, not_true_eq_false, if_false, reduceIte]
    split_ifs <;> simp_all
  · intro hm
    unfold decay_rate_for
    rw [hm]
    refine ⟨?_, ?_, ?_⟩ <;> intro ht <;> simp [tier_rates_get, ht]
  · intro hm
    unfold decay_rate_for
    rw [hm]
    decide
  · intro h r
    unfold newConfidence
    have hq : (100 : ℚ) - (((h : ℤ) * 3600 : ℤ) : ℚ) / 3600 * (r : ℚ) =
        ((100 - (h : ℤ) * r : ℤ) : ℚ) := by
      push_cast
      field_simp
    rw [hq, pyInt_intCast]
  · intro r e1 e2 hr he
    unfold newConfidence
    apply max_le_max (le_refl 0)
    apply pyInt_mono
    have he2 : (e1 : ℚ) ≤ (e2 : ℚ) := by exact_mod_cast he
    have hr2 : (0 : ℚ) ≤ (r : ℚ) := by exact_mod_cast hr
    have hstep : ((e1 : ℚ)) / 3600 * (r : ℚ) ≤ ((e2 : ℚ)) / 3600 * (r : ℚ) := by
      gcongr
    linarith
  · rw [newConfidence_eval]
    decide
  · intro e he
    rw [newConfidence_eval, if_neg (by omega)]
    have h0 : (0 : ℤ) ≤ (e * 3 - 360000) / 3600 := by omega
    exact max_eq_left (by omega)

/-- C4 (witness): a hot-rate listing unseen 10 hours has confidence at most
70; one unseen 40 hours has confidence exactly 0. -/
theorem decay_confidence_formula_witness :
    newConfidence (10 * 3600) 3 ≤ 70 ∧ newConfidence (40 * 3600) 3 = 0 :=
  ⟨(decay_confidence_formula [] 0 0 aptUnseen mktPhila).2.2.2.2.2.1,
    (decay_confidence_formula [] 0 0 aptUnseen mktPhila).2.2.2.2.2.2
      (40 * 3600) (by decide)⟩

/-- C5 (counterexample): an active listing with freshness confidence 0 and
a null verification status — hence non-verified — is NOT deactivated by the
daily sweep's zero-confidence cleanup: the SQL filter
`verification_status != 'verified'` does not match a NULL status, so the
half of the claim stating that non-verified zero-confidence listings are
deactivated by both passes fails for the sweep. -/
theorem sweep_misses_null_status :
    aptUnseen.verification_status ≠ some "verified" ∧
    aptUnseen.freshness_confidence = 0 ∧
    aptUnseen.is_active = 1 ∧
    cleanup_deactivate_zero_confidence [aptUnseen] = [aptUnseen] ∧
    (deactivate_zero_row aptUnseen).is_active = 1 := by
  decide

/-- C5 (amended): a listing with verification status "verified" is never
deactivated by the decay pass nor by the sweep's zero-confidence cleanup,
regardless of its confidence; a processed listing whose computed confidence
is 0 and whose status is not "verified" (null included) is deactivated by
the decay pass; the sweep deactivates an active zero-confidence listing
whose status is non-null and different from "verified" (its SQL `!=` filter
does not match null statuses, which the decay pass alone handles). -/
theorem verified_exemption (markets : List Market) (now seen : ℤ)
    (apt : Apartment) (s : String) :
    (apt.verification_status = some "verified" →
      ((decayStep markets now apt).1.is_active = apt.is_active ∧
        deactivate_zero_row apt = apt)) ∧
    (apt.is_active = 1 → apt.last_seen_at = some seen →
      newConfidence (now - seen) (decay_rate_for markets apt.market_id) = 0 →
      apt.verification_status ≠ some "verified" →
      (decayStep markets now apt).1.is_active = 0) ∧
    (apt.freshness_confidence = 0 → apt.is_active = 1 →
      apt.verification_status = some s → s ≠ "verified" →
      (deactivate_zero_row apt).is_active = 0) := by
  refine ⟨?_, ?_, ?_⟩
  · intro hv
    constructor
    · simp only [decayStep]
      split
      · rfl
      · split
        · rfl
        · split_ifs <;> simp_all [pythonNeStr]
    · unfold deactivate_zero_row
      rw [if_neg]
      intro ⟨_, _, hne⟩
      rw [hv] at hne
      simp [sqlNeStr] at hne
  · intro ha hls hconf hnv
    cases hvs : apt.verification_status with
    | none =>
      simp only [decayStep, ha, hls]
      simp only [ne_eq, not_true_eq_false, if_false]
      rw [hconf]
      split_ifs <;> simp_all [pythonNeStr]
    | some v =>
      have hvne : (v == "verified") = false := by
        rw [beq_eq_false_iff_ne]
        intro hq
        exact hnv (by rw [hvs, hq])
      simp only [decayStep, ha, hls]
      simp only [ne_eq, not_true_eq_false, if_false]
      rw [hconf]
      split_ifs <;> simp_all [pythonNeStr, bne]
  · intro h0 h1 hs hneq
    unfold deactivate_zero_row
    rw [if_pos ⟨h0, h1, by simp [sqlNeStr, hs, hneq]⟩]

/-- C5 (witness): concrete instances — a verified listing untouched by both
passes; an unverified listing decayed to 0 deactivated by the decay pass; a
pending zero-confidence listing deactivated by the sweep. -/
theorem verified_exemption_witness :
    ((decayStep [] 3600 aptVerified).1.is_active = aptVerified.is_active ∧
      deactivate_zero_row aptVerified = aptVerified) ∧
    (decayStep [] 360000 aptSeen).1.is_active = 0 ∧
    (deactivate_zero_row aptPendingZero).is_active = 0 :=
  ⟨(verified_exemption [] 3600 0 aptVerified "x").1 rfl,
    (verified_exemption [] 360000 0 aptSeen "x").2.1 rfl rfl
      (by rw [newConfidence_eval]; decide) (by decide),
    (verified_exemption [] 0 0 aptPendingZero "pending").2.2 rfl rfl rfl
      (by decide)⟩

theorem decayStep_dispatch_pending (markets : List Market) (t : ℤ)
    (a : Apartment) (h : (decayStep markets t a).2 = true) :
    (decayStep markets t a).1.verification_status = some "pending" := by
  simp only [decayStep] at h ⊢
  split at h
  · exact absurd h (by simp)
  · split at h
    · exact absurd h (by simp)
    · split_ifs at h ⊢ <;> simp_all

theorem decayStep_no_dispatch (markets : List Market) (t : ℤ)
    (a : Apartment) (h : a.verification_status ≠ none) :
    (decayStep markets t a).2 = false := by
  simp only [decayStep]
  split
  · rfl
  · split
    · rfl
    · split_ifs <;> simp_all

theorem decayStep_status_stable (markets : List Market) (t : ℤ)
    (a : Apartment) (h : a.verification_status ≠ none) :
    (decayStep markets t a).1.verification_status = a.verification_status := by
  simp only [decayStep]
  split
  · rfl
  · split
    · rfl
    · split_ifs <;> simp_all

theorem decayIter_zero_of_status (markets : List Market) (times : List ℤ) :
    ∀ a : Apartment, a.verification_status ≠ none →
      (decayIter markets a times).2 = 0 := by
  induction times with
  | nil => intro a _; rfl
  | cons t ts ih =>
    intro a ha
    simp only [decayIter]
    rw [decayStep_no_dispatch markets t a ha]
    have hs : (decayStep markets t a).1.verification_status ≠ none := by
      rw [decayStep_status_stable markets t a ha]
      exact ha
    simp [ih _ hs]

theorem decayIter_le_one (markets : List Market) (times : List ℤ) :
    ∀ a : Apartment, (decayIter markets a times).2 ≤ 1 := by
  induction times with
  | nil => intro a; simp [decayIter]
  | cons t ts ih =>
    intro a
    simp only [decayIter]
    by_cases hd : (decayStep markets t a).2 = true
    · rw [hd]
      have hp : (decayStep markets t a).1.verification_status ≠ none := by
        rw [decayStep_dispatch_pending markets t a hd]
        simp
      rw [decayIter_zero_of_status markets ts _ hp]
      simp
    · rw [Bool.not_eq_true] at hd
      rw [hd]
      simpa using ih (decayStep markets t a).1

/-- C6: a processed listing is marked `pending` with a verification check
dispatched exactly when its newly computed confidence is below 40 and its
verification status is null; any dispatch leaves the status `pending`; a
listing whose status is already non-null (pending, verified or gone) is
never dispatched for; and over any sequence of decay passes at most one
verification check is ever dispatched for a listing. -/
theorem verification_one_shot (markets : List Market) (now seen : ℤ)
    (apt : Apartment) (times : List ℤ) :
    (apt.is_active = 1 → apt.last_seen_at = some seen →
      ((decayStep markets now apt).2 = true ↔
        (newConfidence (now - seen) (decay_rate_for markets apt.market_id) <
            40 ∧
          apt.verification_status = none))) ∧
    ((decayStep markets now apt).2 = true →
      (decayStep markets now apt).1.verification_status = some "pending") ∧
    (apt.verification_status ≠ none →
      (decayStep markets now apt).2 = false) ∧
    (decayIter markets apt times).2 ≤ 1 := by
  refine ⟨?_, decayStep_dispatch_pending markets now apt,
    decayStep_no_dispatch markets now apt,
    decayIter_le_one markets times apt⟩
  intro ha hls
  simp only [decayStep, ha, hls]
  simp only [ne_eq, not_true_eq_false, if_false]
  constructor
  · intro h
    split_ifs at h <;> simp_all
  · intro ⟨hc, hv⟩
    split_ifs <;> simp_all

/-- C6 (witness): a concrete listing decayed to confidence 39 with null
status is dispatched and marked pending; iterated passes dispatch at most
one check. -/
theorem verification_one_shot_witness :
    (decayStep [] 219600 aptSeen).2 = true ∧
    (decayStep [] 219600 aptSeen).1.verification_status = some "pending" ∧
    (decayIter [] aptSeen [219600, 223200, 226800]).2 ≤ 1 := by
  have hd : (decayStep [] 219600 aptSeen).2 = true :=
    ((verification_one_shot [] 219600 0 aptSeen []).1 rfl rfl).2
      ⟨by rw [newConfidence_eval]; decide, rfl⟩
  exact ⟨hd, (verification_one_shot [] 219600 0 aptSeen []).2.1 hd,
    (verification_one_shot [] 0 0 aptSeen [219600, 223200, 226800]).2.2.2⟩

/-- C7 (counterexample): with an exception injected into sweep step 1, the
remaining cleanups do not execute: the whole run aborts with an escaped
error, the market with 2 consecutive failures keeps them (step 2 not
applied), the stuck running job stays `running` (step 3 not applied) and
the daily rate-limit counter is not reset (step 4 not applied) — refuting
the claim that a failing cleanup leaves the other three effective. -/
theorem sweep_steps_not_independent :
    (cleanup_maintenance { step1_raises := true } 10000 sweepStart).1 =
      sweepStart ∧
    ((cleanup_maintenance { step1_raises := true } 10000 sweepStart).2).isSome
      = true ∧
    ((cleanup_maintenance { step1_raises := true } 10000
        sweepStart).1.markets.map Market.consecutive_failures) = [2] ∧
    ((cleanup_maintenance { step1_raises := true } 10000
        sweepStart).1.jobs.map ScrapeJob.status) = ["running"] ∧
    ((cleanup_maintenance { step1_raises := true } 10000
        sweepStart).1.sources.map DataSource.current_day_calls) = [7] := by
  decide

/-- C7 (amended): the sweep's four cleanups are not isolated: an exception
raised in any of steps 1–3 — which share a single session committed only at
the end — escapes the task with the state unchanged (later steps never run,
earlier uncommitted updates roll back); when steps 1–3 raise nothing, all
three are applied and no exception escapes even if step 4 fails, step 4's
failure being swallowed by `reset_rate_limits`'s own handler at the cost of
losing only the daily rate-limit reset. -/
theorem sweep_fault_semantics (f : SweepFaults) (now : ℤ) (st : SweepState) :
    ((f.step1_raises = true ∨ f.step2_raises = true ∨ f.step3_raises = true) →
      ∃ e, cleanup_maintenance f now st = (st, some e)) ∧
    (f.step1_raises = false → f.step2_raises = false →
      f.step3_raises = false →
      ((cleanup_maintenance f now st).2 = none ∧
        (cleanup_maintenance f now st).1.apartments =
          cleanup_deactivate_zero_confidence st.apartments ∧
        (cleanup_maintenance f now st).1.markets =
          reset_circuit_breakers st.markets ∧
        (cleanup_maintenance f now st).1.jobs =
          cleanup_fail_stale_jobs now st.jobs ∧
        (f.step4_raises = true →
          (cleanup_maintenance f now st).1.sources = st.sources) ∧
        (f.step4_raises = false →
          (cleanup_maintenance f now st).1.sources =
            reset_rate_limits_day now st.sources))) := by
  constructor
  · intro h
    unfold cleanup_maintenance
    rcases h with h | h | h
    · rw [h]
      exact ⟨"step1 raised", rfl⟩
    · rw [h]
      split_ifs <;> first | exact ⟨_, rfl⟩ | simp_all
    · rw [h]
      split_ifs <;> first | exact ⟨_, rfl⟩ | simp_all
  · intro h1 h2 h3
    unfold cleanup_maintenance
    rw [h1, h2, h3]
    by_cases h4 : f.step4_raises = true
    · rw [h4]
      simp
    · rw [Bool.not_eq_true] at h4
      rw [h4]
      simp

/-- C7 (witness): concrete runs — a step-2 fault aborts with the state
unchanged; a fault-free run applies steps 1–3; a step-4-only fault is
swallowed while steps 1–3 still apply. -/
theorem sweep_fault_semantics_witness :
    (∃ e, cleanup_maintenance { step2_raises := true } 10000 sweepStart =
      (sweepStart, some e)) ∧
    (cleanup_maintenance { step4_raises := true } 10000 sweepStart).2 =
      none ∧
    (cleanup_maintenance { step4_raises := true } 10000 sweepStart).1.markets
      = reset_circuit_breakers sweepStart.markets ∧
    (cleanup_maintenance { step4_raises := true } 10000 sweepStart).1.sources
      = sweepStart.sources :=
  ⟨(sweep_fault_semantics { step2_raises := true } 10000 sweepStart).1
      (Or.inr (Or.inl rfl)),
    ((sweep_fault_semantics { step4_raises := true } 10000 sweepStart).2
      rfl rfl rfl).1,
    ((sweep_fault_semantics { step4_raises := true } 10000 sweepStart).2
      rfl rfl rfl).2.2.1,
    ((sweep_fault_semantics { step4_raises := true } 10000 sweepStart).2
      rfl rfl rfl).2.2.2.2.1 rfl⟩

theorem dictLookup_append_some {A : List (String × String)}
    (B : List (String × String)) {k v : String}
    (h : dictLookup A k = some v) : dictLookup (A ++ B) k = some v := by
  induction A with
  | nil => simp [dictLookup] at h
  | cons p rest ih =>
    obtain ⟨k1, v1⟩ := p
    rw [List.cons_append]
    simp only [dictLookup] at h ⊢
    by_cases hp : k1 = k
    · rw [if_pos hp] at h
      rw [if_pos hp]
      exact h
    · rw [if_neg hp] at h
      rw [if_neg hp]
      exact ih h

theorem dictLookup_append_none {A : List (String × String)}
    (B : List (String × String)) {k : String}
    (h : dictLookup A k = none) : dictLookup (A ++ B) k = dictLookup B k := by
  induction A with
  | nil => rfl
  | cons p rest ih =>
    obtain ⟨k1, v1⟩ := p
    rw [List.cons_append]
    simp only [dictLookup] at h ⊢
    by_cases hp : k1 = k
    · rw [if_pos hp] at h
      cases h
    · rw [if_neg hp] at h
      rw [if_neg hp]
      exact ih h

theorem dictLookup_isSome_of_mem {E : List (String × String)} {k : String}
    (h : k ∈ E.map Prod.fst) : (dictLookup E k).isSome = true := by
  induction E with
  | nil => cases h
  | cons p rest ih =>
    obtain ⟨k1, v1⟩ := p
    simp only [dictLookup]
    by_cases hp : k1 = k
    · rw [if_pos hp]
      rfl
    · rw [if_neg hp]
      apply ih
      simp only [List.map_cons, List.mem_cons] at h
      rcases h with h1 | h1
      · exact absurd h1.symm hp
      · exact h1

theorem check_duplicate_guard (l : Listing) (H : List (String × String))
    (ex : List Listing)
    (hnone : dictLookup H (generate_content_hash l) = none) :
    ((check_duplicate (withHash l) H ex).is_duplicate &&
        truthyStr (check_duplicate (withHash l) H ex).matched_id) = true ↔
      (ex ≠ [] ∧ ∃ mid sim,
        find_fuzzy_match (withHash l) ex (9/10) = some (mid, sim) ∧
        truthyStr mid = true) := by
  unfold check_duplicate
  simp only [withHash, generate_content_hash_set_hash]
  rw [hnone]
  by_cases hex : ex = []
  · subst hex
    simp
  · rw [if_pos hex]
    cases hf : find_fuzzy_match
        { l with content_hash := some (generate_content_hash l) } ex (9/10) with
    | none => simp [hex, hf]
    | some p =>
      obtain ⟨mid, sim⟩ := p
      simp [hex, hf]

theorem dedup_step_exact {H : List (String × String)} {ex : List Listing}
    {st : DedupState} {l : Listing} {mid : String}
    (h : dictLookup H (generate_content_hash l) = some mid) :
    dedup_step H ex st l =
      { st with updates := st.updates ++
          [⟨some mid, generate_content_hash l, l.images,
            l.description.getD ""⟩] } := by
  simp only [dedup_step]
  rw [h]

theorem dedup_step_to_update {H : List (String × String)} {ex : List Listing}
    (st : DedupState) {l : Listing}
    (hcond : (dictLookup H (generate_content_hash l)).isSome = true ∨
      (ex ≠ [] ∧ ∃ mid sim,
        find_fuzzy_match (withHash l) ex (9/10) = some (mid, sim) ∧
        truthyStr mid = true)) :
    (dedup_step H ex st l).new_listings = st.new_listings ∧
    (dedup_step H ex st l).skipped = st.skipped ∧
    (dedup_step H ex st l).updates.length = st.updates.length + 1 := by
  cases hl : dictLookup H (generate_content_hash l) with
  | some mid =>
    rw [dedup_step_exact hl]
    simp
  | none =>
    rcases hcond with hs | hfz
    · rw [hl] at hs
      cases hs
    · have hguard := (check_duplicate_guard l H ex hl).2 hfz
      simp only [dedup_step]
      rw [hl, if_pos hfz.1]
      simp only [withHash] at hguard
      simp [hguard]

theorem dedup_step_new_extends (H : List (String × String))
    (ex : List Listing) (st : DedupState) (l : Listing) :
    ∃ Δ, (dedup_step H ex st l).new_listings = st.new_listings ++ Δ := by
  simp only [dedup_step]
  cases dictLookup H (generate_content_hash l) with
  | some mid => exact ⟨[], (List.append_nil _).symm⟩
  | none =>
    cases hf : (if ex ≠ [] then
        let r := check_duplicate
          { l with content_hash := some (generate_content_hash l) } H ex
        if (r.is_duplicate && truthyStr r.matched_id) = true then
          some (⟨r.matched_id, generate_content_hash l, l.images,
            l.description.getD ""⟩ : UpdateEntry)
        else none
      else none) with
    | some u => exact ⟨[], (List.append_nil _).symm⟩
    | none =>
      by_cases hm : generate_content_hash l ∈ st.batch_hashes
      · rw [if_pos hm]
        exact ⟨[], (List.append_nil _).symm⟩
      · rw [if_neg hm]
        exact ⟨[{ l with content_hash := some (generate_content_hash l) }],
          rfl⟩

theorem dedup_fold_new_extends (H : List (String × String))
    (ex : List Listing) :
    ∀ (B : List Listing) (st : DedupState),
      ∃ Δ, (List.foldl (dedup_step H ex) st B).new_listings =
        st.new_listings ++ Δ := by
  intro B
  induction B with
  | nil => exact fun st => ⟨[], (List.append_nil _).symm⟩
  | cons x xs ih =>
    intro st
    rw [List.foldl_cons]
    obtain ⟨d1, hd1⟩ := dedup_step_new_extends H ex st x
    obtain ⟨d2, hd2⟩ := ih (dedup_step H ex st x)
    exact ⟨d1 ++ d2, by rw [hd2, hd1, List.append_assoc]⟩

theorem dedup_step_inv {H : List (String × String)} {ex : List Listing}
    {st : DedupState} (l : Listing)
    (h : st.batch_hashes = st.new_listings.map generate_content_hash) :
    (dedup_step H ex st l).batch_hashes =
      (dedup_step H ex st l).new_listings.map generate_content_hash := by
  simp only [dedup_step]
  cases dictLookup H (generate_content_hash l) with
  | some mid => exact h
  | none =>
    cases (if ex ≠ [] then
        let r := check_duplicate
          { l with content_hash := some (generate_content_hash l) } H ex
        if (r.is_duplicate && truthyStr r.matched_id) = true then
          some (⟨r.matched_id, generate_content_hash l, l.images,
            l.description.getD ""⟩ : UpdateEntry)
        else none
      else none) with
    | some u => exact h
    | none =>
      by_cases hm : generate_content_hash l ∈ st.batch_hashes
      · rw [if_pos hm]
        exact h
      · rw [if_neg hm]
        simp only [List.map_append, List.map_cons, List.map_nil,
          generate_content_hash_set_hash]
        rw [h]

theorem dedup_step_cases (H : List (String × String)) (ex : List Listing)
    (st : DedupState) (l : Listing)
    (hinv : st.batch_hashes = st.new_listings.map generate_content_hash) :
    (dictLookup H (generate_content_hash l)).isSome = true ∨
    (ex ≠ [] ∧ ∃ mid sim,
      find_fuzzy_match (withHash l) ex (9/10) = some (mid, sim) ∧
      truthyStr mid = true) ∨
    generate_content_hash l ∈
      (dedup_step H ex st l).new_listings.map generate_content_hash := by
  cases hl : dictLookup H (generate_content_hash l) with
  | some mid =>
    left
    rfl
  | none =>
    right
    by_cases hex : ex = []
    · right
      subst hex
      simp only [dedup_step, hl]
      simp only [ne_eq, not_true_eq_false, if_false, reduceIte]
      by_cases hm : generate_content_hash l ∈ st.batch_hashes
      · rw [if_pos hm]
        rw [hinv] at hm
        exact hm
      · rw [if_neg hm]
        simp [generate_content_hash_set_hash]
    · cases hg : ((check_duplicate (withHash l) H ex).is_duplicate &&
          truthyStr (check_duplicate (withHash l) H ex).matched_id) with
      | true =>
        left
        exact (check_duplicate_guard l H ex hl).1 hg
      | false =>
        right
        simp only [dedup_step, hl]
        rw [if_pos hex]
        simp only [withHash] at hg
        rw [hg]
        simp only [Bool.false_eq_true, if_false]
        by_cases hm : generate_content_hash l ∈ st.batch_hashes
        · rw [if_pos hm]
          rw [hinv] at hm
          exact hm
        · rw [if_neg hm]
          simp [generate_content_hash_set_hash]

theorem dedup_fold_classified (H : List (String × String))
    (ex : List Listing) :
    ∀ (B : List Listing) (st : DedupState),
      st.batch_hashes = st.new_listings.map generate_content_hash →
      ∀ l ∈ B,
        (dictLookup H (generate_content_hash l)).isSome = true ∨
        (ex ≠ [] ∧ ∃ mid sim,
          find_fuzzy_match (withHash l) ex (9/10) = some (mid, sim) ∧
          truthyStr mid = true) ∨
        generate_content_hash l ∈
          (List.foldl (dedup_step H ex) st B).new_listings.map
            generate_content_hash := by
  intro B
  induction B with
  | nil =>
    intro st _ l hl
    cases hl
  | cons x xs ih =>
    intro st hinv l hl
    rw [List.foldl_cons]
    rcases List.mem_cons.1 hl with rfl | hmem
    · rcases dedup_step_cases H ex st l hinv with hs | hf | hnew
      · exact Or.inl hs
      · exact Or.inr (Or.inl hf)
      · right
        right
        obtain ⟨Δ, hΔ⟩ := dedup_fold_new_extends H ex xs (dedup_step H ex st l)
        rw [hΔ, List.map_append]
        exact List.mem_append_left _ hnew
    · exact ih (dedup_step H ex st x) (dedup_step_inv x hinv) l hmem

theorem dedup_fold_all_updates (H2 : List (String × String))
    (ex : List Listing) :
    ∀ (B : List Listing) (st : DedupState),
      (∀ l ∈ B,
        (dictLookup H2 (generate_content_hash l)).isSome = true ∨
        (ex ≠ [] ∧ ∃ mid sim,
          find_fuzzy_match (withHash l) ex (9/10) = some (mid, sim) ∧
          truthyStr mid = true)) →
      (List.foldl (dedup_step H2 ex) st B).new_listings = st.new_listings ∧
      (List.foldl (dedup_step H2 ex) st B).skipped = st.skipped ∧
      (List.foldl (dedup_step H2 ex) st B).updates.length =
        st.updates.length + B.length := by
  intro B
  induction B with
  | nil =>
    intro st _
    exact ⟨rfl, rfl, rfl⟩
  | cons x xs ih =>
    intro st hall
    rw [List.foldl_cons]
    have hx := dedup_step_to_update st (hall x (List.mem_cons_self x xs))
    have hrest := ih (dedup_step H2 ex st x)
      (fun l hl => hall l (List.mem_cons_of_mem x hl))
    refine ⟨?_, ?_, ?_⟩
    · rw [hrest.1, hx.1]
    · rw [hrest.2.1, hx.2.1]
    · rw [hrest.2.2, hx.2.2, List.length_cons]
      omega

/-- C2: running `deduplicate_batch_with_updates` on the same batch a second
time, against the hash map extended with the content hash of every listing
the first run returned as `new`, yields an empty `new` list and an empty
`skipped` list, with every listing of the batch classified as an update. -/
theorem dedup_batch_idempotent (B : List Listing)
    (H : List (String × String)) (ex : List Listing) :
    (deduplicate_batch_with_updates B
        (H ++ (deduplicate_batch_with_updates B H ex).1.map
          (fun x => (generate_content_hash x, x.id.getD ""))) ex).1 = [] ∧
    (deduplicate_batch_with_updates B
        (H ++ (deduplicate_batch_with_updates B H ex).1.map
          (fun x => (generate_content_hash x, x.id.getD ""))) ex).2.2 = [] ∧
    (deduplicate_batch_with_updates B
        (H ++ (deduplicate_batch_with_updates B H ex).1.map
          (fun x => (generate_content_hash x, x.id.getD ""))) ex).2.1.length
      = B.length := by
  have hrun1 := dedup_fold_classified H ex B {} rfl
  set N := (deduplicate_batch_with_updates B H ex).1 with hN
  set H2 := H ++ N.map (fun x => (generate_content_hash x, x.id.getD ""))
    with hH2
  have hNfold : N = (List.foldl (dedup_step H ex) {} B).new_listings := rfl
  have key : ∀ l ∈ B,
      (dictLookup H2 (generate_content_hash l)).isSome = true ∨
      (ex ≠ [] ∧ ∃ mid sim,
        find_fuzzy_match (withHash l) ex (9/10) = some (mid, sim) ∧
        truthyStr mid = true) := by
    intro l hl
    rcases hrun1 l hl with hs | hf | hmem
    · left
      obtain ⟨v, hv⟩ := Option.isSome_iff_exists.1 hs
      rw [hH2, dictLookup_append_some _ hv]
      rfl
    · right
      exact hf
    · left
      rw [hH2]
      cases hlk : dictLookup H (generate_content_hash l) with
      | some v =>
        rw [dictLookup_append_some _ hlk]
        rfl
      | none =>
        rw [dictLookup_append_none _ hlk]
        apply dictLookup_isSome_of_mem
        rw [List.map_map, hNfold]
        simpa [Function.comp] using hmem
  have hfinal := dedup_fold_all_updates H2 ex B {} key
  refine ⟨?_, ?_, ?_⟩
  · exact hfinal.1
  · exact hfinal.2.1
  · rw [show (deduplicate_batch_with_updates B H2 ex).2.1.length =
      (List.foldl (dedup_step H2 ex) {} B).updates.length from rfl]
    rw [hfinal.2.2]
    simp
